import Mathlib

/-!
Verification of the ephemeral inline volume controller
(`pkg/controller/volume/ephemeral/controller.go`).

The controller watches pods and persistent volume claims (PVCs).  For every
inline ("ephemeral") volume declaration on a pod it ensures that a PVC with a
deterministically derived name exists and is owned by the pod, creating it via
the API client when the cache lookup reports not-found.

The embedding below models the reconciler (`syncHandler`, `handleVolume`), the
event translator (`enqueuePod`, `onPVCDelete`) and the worker step
(`processNextWorkItem`).  Effects on the external store are made explicit as a
list of `StoreOp` values emitted by a run; warning events recorded against the
pod are collected as `Event` values; the queue operations a worker performs
are collected as `QueueOp` values.  Cache reads and the API client's create
outcome are supplied by an `Env` record, mirroring the listers, the pod
indexer, and the kube client the Go controller holds.
-/

/-- An owner reference as placed on a created claim
(`metav1.OwnerReference`).  `controller` and `blockOwnerDeletion` are
`*bool` in Go, hence `Option Bool` here. -/
structure OwnerReference where
  apiVersion : String
  kind : String
  name : String
  uid : String
  controller : Option Bool
  blockOwnerDeletion : Option Bool
deriving DecidableEq

/-- The claim template carried by an inline volume declaration
(`vol.Ephemeral.VolumeClaimTemplate`).  `labels` and `annos` model the
`Labels` and `Annotations` string maps of its object metadata; `spec` models
the embedded claim spec, which the controller copies opaquely. -/
structure PersistentVolumeClaimTemplate where
  labels : List (String × String)
  annos : List (String × String)
  spec : String
deriving DecidableEq

/-- One entry of `pod.Spec.Volumes`.  `ephemeral` is `some tmpl` exactly when
`vol.Ephemeral != nil` in Go; the template pointer inside the ephemeral
source is required to be non-nil by API validation, so the two pointer
levels are collapsed into one `Option`. -/
structure Volume where
  name : String
  ephemeral : Option PersistentVolumeClaimTemplate
deriving DecidableEq

/-- A pod as read from the shared informer cache.  `ns` models
`pod.Namespace` (the word `namespace` is reserved in Lean);
`deletionTimestamp` is the deletion marker (`pod.DeletionTimestamp`, nil
until deletion is requested). -/
structure Pod where
  ns : String
  name : String
  uid : String
  deletionTimestamp : Option String
  volumes : List Volume
deriving DecidableEq

/-- A persistent volume claim as read from the PVC cache or constructed by
the controller.  The namespace is not part of the object here because the Go
code never sets it on the constructed object; it is carried by the create
call instead. -/
structure PersistentVolumeClaim where
  name : String
  ownerReferences : List OwnerReference
  annos : List (String × String)
  labels : List (String × String)
  spec : String
deriving DecidableEq

/-- Outcome of a cache lookup: the Go listers return `(obj, err)` where
`obj` is nil whenever `err` is non-nil, and a not-found error is
distinguished from other errors by `errors.IsNotFound`. -/
inductive LookupResult (α : Type) where
  | found : α → LookupResult α
  | notFound : LookupResult α
  | err : String → LookupResult α
deriving DecidableEq

/-- A mutation issued to the external store.  The API client offers create,
update and delete for the claim kind; recording which one a run issues lets
the frame property "only creates" be stated. -/
inductive StoreOp where
  | create : String → PersistentVolumeClaim → StoreOp
  | update : String → PersistentVolumeClaim → StoreOp
  | delete : String → String → StoreOp
deriving DecidableEq

/-- A user-visible event recorded against a pod via
`ec.recorder.Event(pod, eventType, reason, message)`. -/
structure Event where
  podNamespace : String
  podName : String
  eventType : String
  reason : String
  message : String
deriving DecidableEq

/-- An operation a worker performs on the work queue while processing one
item (`ec.queue.Forget`, `ec.queue.AddRateLimited`, `ec.queue.Done`). -/
inductive QueueOp where
  | forget : String → QueueOp
  | addRateLimited : String → QueueOp
  | done : String → QueueOp
deriving DecidableEq

/-- The read-side environment of one reconciliation pass: the pod lister
(`podLister.Pods(ns).Get(name)`), the PVC lister
(`pvcLister.PersistentVolumeClaims(ns).Get(name)`), the API client's create
outcome (`none` for success, `some msg` for the returned error), and the
reverse pod index (`podIndexer.ByIndex(PodPVCIndex, key)`). -/
structure Env where
  podGet : String → String → LookupResult Pod
  pvcGet : String → String → LookupResult PersistentVolumeClaim
  createErr : String → PersistentVolumeClaim → Option String
  podsByPVCIndex : String → Except String (List Pod)

/-- Splits a key into namespace and name on the slash character; auxiliary
for `splitMetaNamespaceKey`. -/
def splitSlashes : List Char → List (List Char)
  | [] => [[]]
  | c :: cs =>
    let rest := splitSlashes cs
    if c = '/' then [] :: rest
    else
      match rest with
      | [] => [[c]]
      | r :: rs => (c :: r) :: rs

/-- Modelled from the spec: `kcache.SplitMetaNamespaceKey` (client-go) is
repository code outside the given sources.  A work-item key is the pod's
(namespace, name) pair; a key without a slash is a cluster-scoped name with
empty namespace, and a key that does not parse into such a pair (more than
one slash) is a parse failure. -/
def splitMetaNamespaceKey (key : String) : Except String (String × String) :=
  match splitSlashes key.data with
  | [n] => Except.ok ("", String.mk n)
  | [ns, n] => Except.ok (String.mk ns, String.mk n)
  | _ => Except.error ("unexpected key format: " ++ key)

/-- Modelled from the spec: `ephemeral.VolumeClaimName` (component-helpers)
is repository code outside the given sources.  The spec calls it a
deterministic claim identity derived from the pod identity and the
declaration name, with example `p1-vol-a` for pod `p1` and declaration
`vol-a`. -/
def VolumeClaimName (pod : Pod) (vol : Volume) : String :=
  pod.name ++ "-" ++ vol.name

/-- Modelled from the spec: `ephemeral.VolumeIsForPod` (component-helpers)
is repository code outside the given sources.  The spec requires verifying
the claim "is actually owned by this pod (ownership/UID match)" via its
controller owner reference.  Returns `none` on a match and `some msg` on a
mismatch, mirroring the Go error return. -/
def VolumeIsForPod (pod : Pod) (pvc : PersistentVolumeClaim) : Option String :=
  match pvc.ownerReferences.find? (fun ref => ref.controller == some true) with
  | some ref =>
    if ref.uid == pod.uid then none
    else some ("PVC " ++ pvc.name ++ " was not created for pod " ++ pod.name)
  | none => some ("PVC " ++ pvc.name ++ " is not owned by pod " ++ pod.name)

/-- The claim object `handleVolume` constructs before the create call
(controller.go lines 263-281): name from `VolumeClaimName`, a single owner
reference to the pod with `APIVersion "v1"`, `Kind "Pod"`, the pod's name
and UID, controller and block-owner-deletion both `true`, and the
template's annotations, labels and spec copied verbatim. -/
def newPVC (pod : Pod) (pvcName : String) (tmpl : PersistentVolumeClaimTemplate) :
    PersistentVolumeClaim :=
  { name := pvcName
    ownerReferences := [{ apiVersion := "v1"
                          kind := "Pod"
                          name := pod.name
                          uid := pod.uid
                          controller := some true
                          blockOwnerDeletion := some true }]
    annos := tmpl.annos
    labels := tmpl.labels
    spec := tmpl.spec }

/-- `handleVolume` (controller.go lines 242-289): skip non-ephemeral
volumes; look up the derived claim name in the PVC cache; a lookup error
other than not-found is returned; a found claim is checked for ownership; a
not-found claim is created with the pod as owner, and a create failure is
wrapped and returned.  The second component lists the store mutations
issued. -/
def handleVolume (env : Env) (pod : Pod) (vol : Volume) :
    Except String Unit × List StoreOp :=
  match vol.ephemeral with
  | none => (Except.ok (), [])
  | some tmpl =>
    let pvcName := VolumeClaimName pod vol
    match env.pvcGet pod.ns pvcName with
    | LookupResult.err e => (Except.error e, [])
    | LookupResult.found pvc =>
      match VolumeIsForPod pod pvc with
      | some e => (Except.error e, [])
      | none => (Except.ok (), [])
    | LookupResult.notFound =>
      let pvc := newPVC pod pvcName tmpl
      match env.createErr pod.ns pvc with
      | some e =>
        (Except.error ("create PVC " ++ pvcName ++ ": " ++ e),
         [StoreOp.create pod.ns pvc])
      | none => (Except.ok (), [StoreOp.create pod.ns pvc])

/-- The volume loop of `syncHandler` (controller.go lines 231-236): each
volume is handled in order; on the first failure a warning event with reason
`FailedBinding` naming the volume and the cause is recorded against the pod,
the error is wrapped with the key and volume name and returned, and the
remaining volumes are not processed. -/
def forEachVolume (env : Env) (key : String) (pod : Pod) :
    List Volume → Except String Unit × List StoreOp × List Event
  | [] => (Except.ok (), [], [])
  | vol :: rest =>
    match handleVolume env pod vol with
    | (Except.error e, ops) =>
      (Except.error ("pod " ++ key ++ ", ephemeral volume " ++ vol.name ++ ": " ++ e),
       ops,
       [{ podNamespace := pod.ns
          podName := pod.name
          eventType := "Warning"
          reason := "FailedBinding"
          message := "ephemeral volume " ++ vol.name ++ ": " ++ e }])
    | (Except.ok _, ops) =>
      let r := forEachVolume env key pod rest
      (r.1, ops ++ r.2.1, r.2.2)

/-- `syncHandler` (controller.go lines 210-239): parse the key; resolve the
pod, treating not-found as success; on any other lookup error the Go code
formats `pod.Namespace`, `pod.Name` and `pod.UID` in a log call (line 221)
while `pod` is nil, a nil-pointer dereference modelled as a panic (`none`);
a pod marked for deletion is success; otherwise run the volume loop. -/
def syncHandler (env : Env) (key : String) :
    Option (Except String Unit × List StoreOp × List Event) :=
  match splitMetaNamespaceKey key with
  | Except.error e => some (Except.error e, [], [])
  | Except.ok (ns, name) =>
    match env.podGet ns name with
    | LookupResult.notFound => some (Except.ok (), [], [])
    | LookupResult.err _ => none
    | LookupResult.found pod =>
      if pod.deletionTimestamp.isSome then some (Except.ok (), [], [])
      else some (forEachVolume env key pod pod.volumes)

/-- `processNextWorkItem` (controller.go lines 189-206): run `syncHandler`
on the key; on success forget the key's backoff state, on failure re-add it
rate-limited; the deferred `Done` runs last.  A panic inside the handler
propagates (`none`). -/
def processNextWorkItem (env : Env) (key : String) : Option (List QueueOp) :=
  match syncHandler env key with
  | none => none
  | some (Except.ok _, _, _) => some [QueueOp.forget key, QueueOp.done key]
  | some (Except.error _, _, _) => some [QueueOp.addRateLimited key, QueueOp.done key]

/-- Modelled from the spec: `kcache.DeletionHandlingMetaNamespaceKeyFunc`
(client-go) is repository code outside the given sources.  The work-item
key is the pod's (namespace, name) pair, written `ns/name`, or the bare
name when the namespace is empty; on a typed pod the key function cannot
fail. -/
def podKey (pod : Pod) : String :=
  if pod.ns == "" then pod.name else pod.ns ++ "/" ++ pod.name

/-- `enqueuePod` (controller.go lines 119-142) restricted to typed pods (a
non-pod argument is dropped by the type assertion): a pod already being
deleted is ignored; otherwise, if at least one volume is an inline volume
declaration, the pod's key is enqueued once.  The result lists the keys
added to the work queue. -/
def enqueuePod (pod : Pod) : List String :=
  if pod.deletionTimestamp.isSome then []
  else if pod.volumes.any (fun vol => vol.ephemeral.isSome) then [podKey pod]
  else []

/-- `onPVCDelete` (controller.go lines 144-164) restricted to typed claims:
look up via the reverse pod index all pods referencing the deleted claim's
`namespace/name` identity; an index lookup failure is logged and the
notification dropped; otherwise each returned pod is passed to
`enqueuePod`. -/
def onPVCDelete (env : Env) (pvcNamespace pvcName : String) : List String :=
  match env.podsByPVCIndex (pvcNamespace ++ "/" ++ pvcName) with
  | Except.error _ => []
  | Except.ok pods => pods.flatMap enqueuePod

/-- Whether a store operation is the creation of the claim named `n` in
namespace `ns`; auxiliary for `applyCreates`. -/
def matchesCreate (ns n : String) : StoreOp → Bool
  | StoreOp.create ns2 pvc => ns2 == ns && pvc.name == n
  | _ => false

/-- The environment after the external store has absorbed the create calls
of a pass and the watch-fed cache has caught up, with no other external
change: each created claim is now found in the PVC cache under the
namespace and name it was created with (first matching create wins), and
every other lookup is unchanged.  This is the "no external change between
runs" environment of the idempotence property. -/
def applyCreates (env : Env) (ops : List StoreOp) : Env :=
  { env with pvcGet := fun ns n =>
      match ops.find? (matchesCreate ns n) with
      | some (StoreOp.create _ pvc) => LookupResult.found pvc
      | _ => env.pvcGet ns n }

/-! ### Helper lemmas -/

/-- A claim constructed by `newPVC` passes the ownership check of the pod it
was constructed for. -/
lemma volumeIsForPod_newPVC (pod : Pod) (pvcName : String)
    (tmpl : PersistentVolumeClaimTemplate) :
    VolumeIsForPod pod (newPVC pod pvcName tmpl) = none := by
  simp [VolumeIsForPod, newPVC, List.find?]

/-! ### Concrete fixtures used by witnesses -/

def tmplW : PersistentVolumeClaimTemplate :=
  { labels := [("app", "demo")], annos := [("team", "storage")], spec := "one-gig-rwo" }

def volW : Volume := { name := "vol-a", ephemeral := some tmplW }

def podW : Pod :=
  { ns := "ns", name := "p1", uid := "uid-1", deletionTimestamp := none,
    volumes := [volW] }

def envE : Env :=
  { podGet := fun _ _ => LookupResult.notFound
    pvcGet := fun _ _ => LookupResult.notFound
    createErr := fun _ _ => none
    podsByPVCIndex := fun _ => Except.ok [] }

def envW : Env :=
  { envE with podGet := fun ns n =>
      if ns == "ns" && n == "p1" then LookupResult.found podW
      else LookupResult.notFound }

/-! ### Claims -/

/-- C1: for an inline-volume declaration whose derived claim name is not
found in the cache, the reconciler issues exactly one create call, in the
pod's namespace, for a claim whose spec, labels and annotations are the
declaration's template verbatim, whose name is the derived claim name, and
whose owner-reference list names the pod (APIVersion v1, Kind Pod, pod name
and UID) with controller and blockOwnerDeletion both true. -/
theorem handleVolume_creates_on_notFound (env : Env) (pod : Pod) (vol : Volume)
    (tmpl : PersistentVolumeClaimTemplate)
    (hvol : vol.ephemeral = some tmpl)
    (hmiss : env.pvcGet pod.ns (VolumeClaimName pod vol) = LookupResult.notFound) :
    ∃ pvc, (handleVolume env pod vol).2 = [StoreOp.create pod.ns pvc] ∧
      pvc.name = VolumeClaimName pod vol ∧
      pvc.spec = tmpl.spec ∧ pvc.labels = tmpl.labels ∧ pvc.annos = tmpl.annos ∧
      pvc.ownerReferences =
        [{ apiVersion := "v1", kind := "Pod", name := pod.name, uid := pod.uid,
           controller := some true, blockOwnerDeletion := some true }] := by
  refine ⟨newPVC pod (VolumeClaimName pod vol) tmpl, ?_, rfl, rfl, rfl, rfl, rfl⟩
  cases hc : env.createErr pod.ns (newPVC pod (VolumeClaimName pod vol) tmpl) with
  | none => simp [handleVolume, hvol, hmiss, hc]
  | some e => simp [handleVolume, hvol, hmiss, hc]

/-- Witness for C1 at a concrete pod, volume and environment. -/
theorem handleVolume_creates_on_notFound_witness :
    ∃ pvc, (handleVolume envW podW volW).2 = [StoreOp.create podW.ns pvc] ∧
      pvc.name = VolumeClaimName podW volW ∧
      pvc.spec = tmplW.spec ∧ pvc.labels = tmplW.labels ∧ pvc.annos = tmplW.annos ∧
      pvc.ownerReferences =
        [{ apiVersion := "v1", kind := "Pod", name := podW.name, uid := podW.uid,
           controller := some true, blockOwnerDeletion := some true }] :=
  handleVolume_creates_on_notFound envW podW volW tmplW rfl rfl

/-- C3: when a claim with the expected derived name exists in the cache but
its owner does not match the pod, reconciliation of that declaration returns
the ownership error and issues no store operation. -/
theorem handleVolume_conflict_error (env : Env) (pod : Pod) (vol : Volume)
    (tmpl : PersistentVolumeClaimTemplate) (pvc : PersistentVolumeClaim) (e : String)
    (hvol : vol.ephemeral = some tmpl)
    (hfound : env.pvcGet pod.ns (VolumeClaimName pod vol) = LookupResult.found pvc)
    (hown : VolumeIsForPod pod pvc = some e) :
    handleVolume env pod vol = (Except.error e, []) := by
  simp [handleVolume, hvol, hfound, hown]

def pvcAlien : PersistentVolumeClaim :=
  { name := "p1-vol-a", ownerReferences := [], annos := [], labels := [], spec := "" }

def envC3 : Env :=
  { envW with pvcGet := fun ns n =>
      if ns == "ns" && n == "p1-vol-a" then LookupResult.found pvcAlien
      else LookupResult.notFound }

/-- Witness for C3 at a concrete conflicting claim. -/
theorem handleVolume_conflict_error_witness :
    handleVolume envC3 podW volW =
      (Except.error "PVC p1-vol-a is not owned by pod p1", []) :=
  handleVolume_conflict_error envC3 podW volW tmplW pvcAlien
    "PVC p1-vol-a is not owned by pod p1" rfl rfl rfl

/-- C4 counterexample: processing the unparseable key `a/b/c` re-adds the
key to the work queue rate-limited, contradicting "dropped, logged, not
retried": `syncHandler` returns the parse error instead of swallowing it,
so `processNextWorkItem` calls `AddRateLimited`. -/
theorem malformed_key_is_requeued :
    processNextWorkItem envE "a/b/c" =
      some [QueueOp.addRateLimited "a/b/c", QueueOp.done "a/b/c"] := rfl

/-- C4 amended: a work-item key that fails to parse into a (namespace, name)
pair makes the sync handler return the parse error, and the worker then
re-adds the key to the work queue with rate-limited backoff; the key is
retried, not dropped. -/
theorem parse_failure_requeued (env : Env) (key e : String)
    (h : splitMetaNamespaceKey key = Except.error e) :
    syncHandler env key = some (Except.error e, [], []) ∧
    processNextWorkItem env key =
      some [QueueOp.addRateLimited key, QueueOp.done key] := by
  have h1 : syncHandler env key = some (Except.error e, [], []) := by
    simp [syncHandler, h]
  exact ⟨h1, by simp [processNextWorkItem, h1]⟩

/-- Witness for the amended C4 at the concrete key `a/b/c`. -/
theorem parse_failure_requeued_witness :
    syncHandler envE "a/b/c" =
      some (Except.error "unexpected key format: a/b/c", [], []) ∧
    processNextWorkItem envE "a/b/c" =
      some [QueueOp.addRateLimited "a/b/c", QueueOp.done "a/b/c"] :=
  parse_failure_requeued envE "a/b/c" "unexpected key format: a/b/c" rfl

/-- C5: a pod with a non-nil deletion marker never triggers a create: the
event translator enqueues no key for it, and the reconciler, on resolving a
key to such a pod, returns success with no store operations and no
events. -/
theorem deleted_pod_never_creates (env : Env) (pod : Pod) (key ns name : String)
    (hdel : pod.deletionTimestamp.isSome = true) :
    enqueuePod pod = [] ∧
    (splitMetaNamespaceKey key = Except.ok (ns, name) →
      env.podGet ns name = LookupResult.found pod →
      syncHandler env key = some (Except.ok (), [], [])) := by
  refine ⟨by simp [enqueuePod, hdel], fun hkey hpod => ?_⟩
  simp [syncHandler, hkey, hpod, hdel]

def podDel : Pod := { podW with deletionTimestamp := some "2026-01-01T00:00:00Z" }

def envDel : Env :=
  { envE with podGet := fun _ _ => LookupResult.found podDel }

/-- Witness for C5 at a concrete pod carrying a deletion marker. -/
theorem deleted_pod_never_creates_witness :
    enqueuePod podDel = [] ∧
    syncHandler envDel "ns/p1" = some (Except.ok (), [], []) :=
  ⟨(deleted_pod_never_creates envDel podDel "ns/p1" "ns" "p1" rfl).1,
   (deleted_pod_never_creates envDel podDel "ns/p1" "ns" "p1" rfl).2 rfl rfl⟩

/-- C6: for a well-formed key whose pod is absent from the cache, the sync
handler returns success with no store operation and no event, and the worker
forgets the key instead of re-adding it. -/
theorem pod_notFound_is_success (env : Env) (key ns name : String)
    (hkey : splitMetaNamespaceKey key = Except.ok (ns, name))
    (hmiss : env.podGet ns name = LookupResult.notFound) :
    syncHandler env key = some (Except.ok (), [], []) ∧
    processNextWorkItem env key = some [QueueOp.forget key, QueueOp.done key] := by
  have h1 : syncHandler env key = some (Except.ok (), [], []) := by
    simp [syncHandler, hkey, hmiss]
  exact ⟨h1, by simp [processNextWorkItem, h1]⟩

/-- Witness for C6 at a concrete key over the empty cache. -/
theorem pod_notFound_is_success_witness :
    syncHandler envE "ns/gone" = some (Except.ok (), [], []) ∧
    processNextWorkItem envE "ns/gone" =
      some [QueueOp.forget "ns/gone", QueueOp.done "ns/gone"] :=
  pod_notFound_is_success envE "ns/gone" "ns" "gone" rfl rfl

def envErr : Env :=
  { envE with podGet := fun _ _ => LookupResult.err "connection refused" }

/-- C10 (code bug): when the pod-cache lookup fails with an error other than
not-found, line 221 of controller.go formats `pod.Namespace`, `pod.Name` and
`pod.UID` in a log call while `pod` is nil; the sync handler dereferences
the nil pod and panics instead of returning the error for a rate-limited
retry. -/
theorem syncHandler_nil_deref_on_lookup_error :
    syncHandler envErr "default/p" = none := rfl

/-- A key is enqueued for a pod exactly when the pod has no deletion marker,
declares at least one inline volume, and the key is the pod's work-item
key. -/
lemma mem_enqueuePod (pod : Pod) (k : String) :
    k ∈ enqueuePod pod ↔
      pod.deletionTimestamp = none ∧
      (∃ vol ∈ pod.volumes, vol.ephemeral.isSome = true) ∧ k = podKey pod := by
  cases hdel : pod.deletionTimestamp with
  | some t => simp [enqueuePod, hdel]
  | none =>
    cases hany : pod.volumes.any (fun vol => vol.ephemeral.isSome) with
    | true =>
      rw [List.any_eq_true] at hany
      simp [enqueuePod, hdel, List.any_eq_true, hany]
    | false =>
      rw [List.any_eq_false] at hany
      simp only [enqueuePod, hdel, Option.isSome_none, Bool.false_eq_true,
        if_false, List.any_eq_false]
      rw [if_neg]
      · simp only [List.not_mem_nil, false_iff]
        rintro ⟨-, ⟨vol, hv, hs⟩, -⟩
        exact absurd hs (by simpa using hany vol hv)
      · rw [List.any_eq_true]
        rintro ⟨vol, hv, hs⟩
        exact absurd hs (by simpa using hany vol hv)

/-- C8: on a claim-deleted notification, the translator enqueues exactly the
keys of the indexed pods that pass the pod-added filter (no deletion marker
and at least one inline volume declaration), and an index lookup failure
drops the notification with no enqueue. -/
theorem onPVCDelete_enqueues_referencing_pods (env : Env) (ns name : String) :
    (∀ e, env.podsByPVCIndex (ns ++ "/" ++ name) = Except.error e →
       onPVCDelete env ns name = []) ∧
    (∀ pods, env.podsByPVCIndex (ns ++ "/" ++ name) = Except.ok pods →
       ∀ k, k ∈ onPVCDelete env ns name ↔
         ∃ pod ∈ pods, pod.deletionTimestamp = none ∧
           (∃ vol ∈ pod.volumes, vol.ephemeral.isSome = true) ∧ k = podKey pod) := by
  constructor
  · intro e he
    simp [onPVCDelete, he]
  · intro pods hp k
    simp only [onPVCDelete, hp]
    rw [List.mem_flatMap]
    constructor
    · rintro ⟨pod, hmem, hk⟩
      exact ⟨pod, hmem, (mem_enqueuePod pod k).mp hk⟩
    · rintro ⟨pod, hmem, hk⟩
      exact ⟨pod, hmem, (mem_enqueuePod pod k).mpr hk⟩

def envIdx : Env :=
  { envE with podsByPVCIndex := fun k =>
      if k == "ns/p1-vol-a" then Except.ok [podW] else Except.ok [] }

/-- Witness for C8: the pod referencing the deleted claim is enqueued. -/
theorem onPVCDelete_enqueues_referencing_pods_witness :
    "ns/p1" ∈ onPVCDelete envIdx "ns" "p1-vol-a" :=
  ((onPVCDelete_enqueues_referencing_pods envIdx "ns" "p1-vol-a").2 [podW] rfl
    "ns/p1").mpr
    ⟨podW, List.mem_singleton.mpr rfl, rfl,
     ⟨volW, List.mem_singleton.mpr rfl, rfl⟩, rfl⟩

/-- Recognizer for create operations, used to state the frame property. -/
def StoreOp.isCreate : StoreOp → Bool
  | StoreOp.create _ _ => true
  | _ => false

/-- Every store operation emitted by `handleVolume` is a create in the pod's
namespace of a claim that passes the pod's ownership check. -/
lemma handleVolume_ops_shape (env : Env) (pod : Pod) (vol : Volume) :
    ∀ op ∈ (handleVolume env pod vol).2, ∃ pvc,
      op = StoreOp.create pod.ns pvc ∧ VolumeIsForPod pod pvc = none ∧
      env.pvcGet pod.ns pvc.name = LookupResult.notFound ∧
      pvc.name = VolumeClaimName pod vol := by
  intro op hop
  cases hvol : vol.ephemeral with
  | none => simp [handleVolume, hvol] at hop
  | some tmpl =>
    cases hget : env.pvcGet pod.ns (VolumeClaimName pod vol) with
    | err e => simp [handleVolume, hvol, hget] at hop
    | found pvc =>
      cases hown : VolumeIsForPod pod pvc <;>
        simp [handleVolume, hvol, hget, hown] at hop
    | notFound =>
      have hshape :
          op = StoreOp.create pod.ns (newPVC pod (VolumeClaimName pod vol) tmpl) := by
        cases hc : env.createErr pod.ns (newPVC pod (VolumeClaimName pod vol) tmpl) with
        | none => simpa [handleVolume, hvol, hget, hc] using hop
        | some e => simpa [handleVolume, hvol, hget, hc] using hop
      exact ⟨newPVC pod (VolumeClaimName pod vol) tmpl, hshape,
        volumeIsForPod_newPVC pod (VolumeClaimName pod vol) tmpl, hget, rfl⟩

/-- Every store operation emitted by the volume loop is a create in the
pod's namespace of a claim passing the pod's ownership check, created only
after a not-found cache lookup of its name. -/
lemma forEachVolume_ops_shape (env : Env) (key : String) (pod : Pod) :
    ∀ vols, ∀ op ∈ (forEachVolume env key pod vols).2.1, ∃ pvc,
      op = StoreOp.create pod.ns pvc ∧ VolumeIsForPod pod pvc = none ∧
      env.pvcGet pod.ns pvc.name = LookupResult.notFound := by
  intro vols
  induction vols with
  | nil => intro op hop; simp [forEachVolume] at hop
  | cons vol rest ih =>
    intro op hop
    have hv := handleVolume_ops_shape env pod vol op
    cases hh : handleVolume env pod vol with
    | mk r ops =>
      rw [hh] at hv
      cases r with
      | error e =>
        simp only [forEachVolume, hh] at hop
        obtain ⟨pvc, h1, h2, h3, -⟩ := hv hop
        exact ⟨pvc, h1, h2, h3⟩
      | ok u =>
        simp only [forEachVolume, hh, List.mem_append] at hop
        cases hop with
        | inl h =>
          obtain ⟨pvc, h1, h2, h3, -⟩ := hv h
          exact ⟨pvc, h1, h2, h3⟩
        | inr h => exact ih op h

/-- Every store operation emitted by a sync pass is a create. -/
lemma syncHandler_ops_shape (env : Env) (key : String) (r : Except String Unit)
    (ops : List StoreOp) (evs : List Event)
    (h : syncHandler env key = some (r, ops, evs)) :
    ∀ op ∈ ops, ∃ ns pvc, op = StoreOp.create ns pvc := by
  intro op hop
  cases hkey : splitMetaNamespaceKey key with
  | error e =>
    simp [syncHandler, hkey] at h
    rw [h.2.1] at hop
    simp at hop
  | ok p =>
    obtain ⟨ns, name⟩ := p
    cases hpod : env.podGet ns name with
    | notFound =>
      simp [syncHandler, hkey, hpod] at h
      rw [h.2.1] at hop
      simp at hop
    | err e => simp [syncHandler, hkey, hpod] at h
    | found pod =>
      cases hdel : pod.deletionTimestamp.isSome with
      | true =>
        simp [syncHandler, hkey, hpod, hdel] at h
        rw [h.2.1] at hop
        simp at hop
      | false =>
        have hfe : forEachVolume env key pod pod.volumes = (r, ops, evs) := by
          simpa [syncHandler, hkey, hpod, hdel] using h
        have := forEachVolume_ops_shape env key pod pod.volumes op (by rw [hfe]; exact hop)
        obtain ⟨pvc, h1, -, -⟩ := this
        exact ⟨pod.ns, pvc, h1⟩

/-- C9: the only mutation a sync pass performs on the external store is
claim creation: every store operation in the list emitted by `syncHandler`
is a create, never an update or a delete; the cached pod and claim objects
are only read through the environment and returned unchanged. -/
theorem syncHandler_only_creates (env : Env) (key : String) (r : Except String Unit)
    (ops : List StoreOp) (evs : List Event)
    (h : syncHandler env key = some (r, ops, evs)) :
    ops.all StoreOp.isCreate = true := by
  rw [List.all_eq_true]
  intro op hop
  obtain ⟨ns, pvc, rfl⟩ := syncHandler_ops_shape env key r ops evs h op hop
  rfl

/-- Witness for C9 on a pass that does create a claim. -/
theorem syncHandler_only_creates_witness :
    ([StoreOp.create "ns" (newPVC podW "p1-vol-a" tmplW)]).all StoreOp.isCreate = true :=
  syncHandler_only_creates envW "ns/p1" (Except.ok ())
    [StoreOp.create "ns" (newPVC podW "p1-vol-a" tmplW)] [] rfl

/-- Running the volume loop on a list with a fully successful prefix
prepends the prefix's store operations to whatever the suffix produces; the
suffix's result and events pass through unchanged. -/
lemma forEachVolume_append (env : Env) (key : String) (pod : Pod) :
    ∀ pre ops0 evs0, forEachVolume env key pod pre = (Except.ok (), ops0, evs0) →
    ∀ l, forEachVolume env key pod (pre ++ l) =
      ((forEachVolume env key pod l).1,
       ops0 ++ (forEachVolume env key pod l).2.1,
       (forEachVolume env key pod l).2.2) := by
  intro pre
  induction pre with
  | nil =>
    intro ops0 evs0 h l
    simp only [forEachVolume, Prod.mk.injEq] at h
    simp [← h.2.1]
  | cons vol pre ih =>
    intro ops0 evs0 h l
    cases hh : handleVolume env pod vol with
    | mk r ops =>
      cases r with
      | error e =>
        exfalso
        simp [forEachVolume, hh] at h
      | ok u =>
        cases hF : forEachVolume env key pod pre with
        | mk r1 rest1 =>
          obtain ⟨ops1, evs1⟩ := rest1
          cases r1 with
          | error e1 =>
            exfalso
            simp [forEachVolume, hh, hF] at h
          | ok u1 =>
            have hops0 : ops0 = ops ++ ops1 := by
              simp only [forEachVolume, hh, hF, Prod.mk.injEq] at h
              exact h.2.1.symm
            have hrec := ih ops1 evs1 (by rw [hF]) l
            simp only [List.cons_append, forEachVolume, hh, List.append_eq, hrec,
              hops0, List.append_assoc]
  
/-- C7: when reconciling a volume fails after a fully successful prefix of
the pod's volume list, the remaining declarations are not processed (the
result does not depend on them), the store operations of the prefix are
kept, the wrapped error is the overall result for the key, and exactly one
warning event with reason FailedBinding naming the failed declaration and
the underlying cause is recorded against the pod. -/
theorem volume_failure_aborts_and_keeps_progress (env : Env) (key ns name : String)
    (pod : Pod) (pre : List Volume) (vol : Volume) (rest : List Volume)
    (e : String) (ops0 ops1 : List StoreOp) (evs0 : List Event)
    (hkey : splitMetaNamespaceKey key = Except.ok (ns, name))
    (hpod : env.podGet ns name = LookupResult.found pod)
    (hdel : pod.deletionTimestamp = none)
    (hvols : pod.volumes = pre ++ vol :: rest)
    (hpre : forEachVolume env key pod pre = (Except.ok (), ops0, evs0))
    (herr : handleVolume env pod vol = (Except.error e, ops1)) :
    syncHandler env key = some
      (Except.error ("pod " ++ key ++ ", ephemeral volume " ++ vol.name ++ ": " ++ e),
       ops0 ++ ops1,
       [{ podNamespace := pod.ns, podName := pod.name, eventType := "Warning",
          reason := "FailedBinding",
          message := "ephemeral volume " ++ vol.name ++ ": " ++ e }]) := by
  have hstep : forEachVolume env key pod (vol :: rest) =
      (Except.error ("pod " ++ key ++ ", ephemeral volume " ++ vol.name ++ ": " ++ e),
       ops1,
       [{ podNamespace := pod.ns, podName := pod.name, eventType := "Warning",
          reason := "FailedBinding",
          message := "ephemeral volume " ++ vol.name ++ ": " ++ e }]) := by
    simp [forEachVolume, herr]
  have hall := forEachVolume_append env key pod pre ops0 evs0 hpre (vol :: rest)
  rw [hstep] at hall
  simp [syncHandler, hkey, hpod, hdel, hvols, hall]

def volB : Volume := { name := "vol-b", ephemeral := some tmplW }

def pvcAlienB : PersistentVolumeClaim :=
  { name := "p1-vol-b", ownerReferences := [], annos := [], labels := [], spec := "" }

def pod7 : Pod := { podW with volumes := [volW, volB] }

def env7 : Env :=
  { envE with
    podGet := fun ns n =>
      if ns == "ns" && n == "p1" then LookupResult.found pod7
      else LookupResult.notFound
    pvcGet := fun ns n =>
      if ns == "ns" && n == "p1-vol-b" then LookupResult.found pvcAlienB
      else LookupResult.notFound }

/-- Witness for C7: the first volume is created, the second volume's
ownership conflict aborts the pass with the created claim kept and one
warning event recorded. -/
theorem volume_failure_aborts_and_keeps_progress_witness :
    syncHandler env7 "ns/p1" = some
      (Except.error
        "pod ns/p1, ephemeral volume vol-b: PVC p1-vol-b is not owned by pod p1",
       [StoreOp.create "ns" (newPVC pod7 "p1-vol-a" tmplW)],
       [{ podNamespace := "ns", podName := "p1", eventType := "Warning",
          reason := "FailedBinding",
          message := "ephemeral volume vol-b: PVC p1-vol-b is not owned by pod p1" }]) :=
  volume_failure_aborts_and_keeps_progress env7 "ns/p1" "ns" "p1" pod7
    [volW] volB [] "PVC p1-vol-b is not owned by pod p1"
    [StoreOp.create "ns" (newPVC pod7 "p1-vol-a" tmplW)] [] []
    rfl rfl rfl rfl rfl rfl

/-- Projection of `applyCreates` on the PVC lookup. -/
lemma applyCreates_pvcGet (env : Env) (CS : List StoreOp) (ns n : String) :
    (applyCreates env CS).pvcGet ns n =
      match CS.find? (matchesCreate ns n) with
      | some (StoreOp.create _ pvc) => LookupResult.found pvc
      | _ => env.pvcGet ns n := rfl

/-- `applyCreates` leaves the pod cache untouched. -/
lemma applyCreates_podGet (env : Env) (CS : List StoreOp) :
    (applyCreates env CS).podGet = env.podGet := rfl

/-- The create operation of a freshly constructed claim matches its own
namespace and name. -/
lemma matchesCreate_newPVC (pod : Pod) (n : String)
    (tmpl : PersistentVolumeClaimTemplate) :
    matchesCreate pod.ns n (StoreOp.create pod.ns (newPVC pod n tmpl)) = true := by
  simp [matchesCreate, newPVC]

/-- After the cache has absorbed a set `CS` of owned create operations that
contains everything a successful `handleVolume` run emitted, the claim for
an inline declaration is found and passes the ownership check. -/
lemma handleVolume_second_lookup (env : Env) (CS : List StoreOp) (pod : Pod)
    (vol : Volume) (tmpl : PersistentVolumeClaimTemplate)
    (hvol : vol.ephemeral = some tmpl)
    (hCS : ∀ op ∈ CS, ∃ pvc2, op = StoreOp.create pod.ns pvc2 ∧
      VolumeIsForPod pod pvc2 = none)
    (hsub : ∀ op ∈ (handleVolume env pod vol).2, op ∈ CS)
    (hok : (handleVolume env pod vol).1 = Except.ok ()) :
    ∃ pvc, (applyCreates env CS).pvcGet pod.ns (VolumeClaimName pod vol) =
      LookupResult.found pvc ∧ VolumeIsForPod pod pvc = none := by
  cases hf : CS.find? (matchesCreate pod.ns (VolumeClaimName pod vol)) with
  | some op' =>
    have hmem := List.mem_of_find?_eq_some hf
    obtain ⟨pvc2, hop', hown2⟩ := hCS op' hmem
    subst hop'
    refine ⟨pvc2, ?_, hown2⟩
    rw [applyCreates_pvcGet, hf]
  | none =>
    have hsame : (applyCreates env CS).pvcGet pod.ns (VolumeClaimName pod vol) =
        env.pvcGet pod.ns (VolumeClaimName pod vol) := by
      rw [applyCreates_pvcGet, hf]
    cases hget : env.pvcGet pod.ns (VolumeClaimName pod vol) with
    | err e =>
      exfalso
      simp [handleVolume, hvol, hget] at hok
    | found pvc =>
      cases hown : VolumeIsForPod pod pvc with
      | some e =>
        exfalso
        simp [handleVolume, hvol, hget, hown] at hok
      | none => exact ⟨pvc, by rw [hsame, hget], hown⟩
    | notFound =>
      exfalso
      have hopmem :
          StoreOp.create pod.ns (newPVC pod (VolumeClaimName pod vol) tmpl) ∈ CS := by
        apply hsub
        cases hc : env.createErr pod.ns (newPVC pod (VolumeClaimName pod vol) tmpl) with
        | none => simp [handleVolume, hvol, hget, hc]
        | some e => simp [handleVolume, hvol, hget, hc]
      rw [List.find?_eq_none] at hf
      exact absurd (matchesCreate_newPVC pod (VolumeClaimName pod vol) tmpl)
        (by simpa using hf _ hopmem)

/-- Under the hypotheses of `handleVolume_second_lookup`, the second run of
`handleVolume` over the absorbed cache succeeds without issuing any store
operation. -/
lemma handleVolume_second_run (env : Env) (CS : List StoreOp) (pod : Pod)
    (vol : Volume)
    (hCS : ∀ op ∈ CS, ∃ pvc2, op = StoreOp.create pod.ns pvc2 ∧
      VolumeIsForPod pod pvc2 = none)
    (hsub : ∀ op ∈ (handleVolume env pod vol).2, op ∈ CS)
    (hok : (handleVolume env pod vol).1 = Except.ok ()) :
    handleVolume (applyCreates env CS) pod vol = (Except.ok (), []) := by
  cases hvol : vol.ephemeral with
  | none => simp [handleVolume, hvol]
  | some tmpl =>
    obtain ⟨pvc, hfind, hown⟩ :=
      handleVolume_second_lookup env CS pod vol tmpl hvol hCS hsub hok
    simp [handleVolume, hvol, hfind, hown]

/-- A successful volume loop rerun over the absorbed cache is a no-op. -/
lemma forEachVolume_second_run (env : Env) (CS : List StoreOp) (key : String)
    (pod : Pod)
    (hCS : ∀ op ∈ CS, ∃ pvc2, op = StoreOp.create pod.ns pvc2 ∧
      VolumeIsForPod pod pvc2 = none) :
    ∀ vols ops evs, forEachVolume env key pod vols = (Except.ok (), ops, evs) →
      (∀ op ∈ ops, op ∈ CS) →
      forEachVolume (applyCreates env CS) key pod vols = (Except.ok (), [], []) := by
  intro vols
  induction vols with
  | nil => intro ops evs h hsub; simp [forEachVolume]
  | cons vol rest ih =>
    intro ops evs h hsub
    cases hh : handleVolume env pod vol with
    | mk r opsh =>
      cases r with
      | error e =>
        exfalso
        simp [forEachVolume, hh] at h
      | ok u =>
        cases hF : forEachVolume env key pod rest with
        | mk r1 rest1 =>
          obtain ⟨ops1, evs1⟩ := rest1
          have h' := h
          simp only [forEachVolume, hh, hF, Prod.mk.injEq] at h'
          obtain ⟨hr1, hops, hevs⟩ := h'
          have hsubh : ∀ op ∈ (handleVolume env pod vol).2, op ∈ CS := by
            intro op hop
            rw [hh] at hop
            exact hsub op (by rw [← hops]; exact List.mem_append_left _ hop)
          have hsub1 : ∀ op ∈ ops1, op ∈ CS := by
            intro op hop
            exact hsub op (by rw [← hops]; exact List.mem_append_right _ hop)
          have h2 := handleVolume_second_run env CS pod vol hCS hsubh (by rw [hh])
          have h3 := ih ops1 evs1 (by rw [hF, hr1]) hsub1
          simp [forEachVolume, h2, h3]

/-- Each volume of a successful loop run was itself handled successfully,
and its store operations are among the loop's. -/
lemma forEachVolume_each_ok (env : Env) (key : String) (pod : Pod) :
    ∀ vols ops evs, forEachVolume env key pod vols = (Except.ok (), ops, evs) →
      ∀ vol ∈ vols, (handleVolume env pod vol).1 = Except.ok () ∧
        ∀ op ∈ (handleVolume env pod vol).2, op ∈ ops := by
  intro vols
  induction vols with
  | nil => intro ops evs h vol hv; simp at hv
  | cons vol0 rest ih =>
    intro ops evs h vol hv
    cases hh : handleVolume env pod vol0 with
    | mk r opsh =>
      cases r with
      | error e =>
        exfalso
        simp [forEachVolume, hh] at h
      | ok u =>
        cases hF : forEachVolume env key pod rest with
        | mk r1 rest1 =>
          obtain ⟨ops1, evs1⟩ := rest1
          have h' := h
          simp only [forEachVolume, hh, hF, Prod.mk.injEq] at h'
          obtain ⟨hr1, hops, hevs⟩ := h'
          rcases List.mem_cons.mp hv with rfl | hvrest
          · refine ⟨by rw [hh], fun op hop => ?_⟩
            rw [hh] at hop
            rw [← hops]
            exact List.mem_append_left _ hop
          · have hrec := ih ops1 evs1 (by rw [hF, hr1]) vol hvrest
            refine ⟨hrec.1, fun op hop => ?_⟩
            rw [← hops]
            exact List.mem_append_right _ (hrec.2 op hop)

/-- C2: after a successful sync pass, rerunning the reconciler on the same
key once the store has absorbed the pass's create calls and with no other
external change is a no-op: the second run succeeds with no store operation
and no event (so cache and store state are unchanged), and for every
inline-volume declaration of the resolved, non-deleted pod the second run's
claim lookup finds a claim that passes the ownership check. -/
theorem syncHandler_idempotent (env : Env) (key : String)
    (ops : List StoreOp) (evs : List Event)
    (h : syncHandler env key = some (Except.ok (), ops, evs)) :
    syncHandler (applyCreates env ops) key = some (Except.ok (), [], []) ∧
    (∀ ns name pod, splitMetaNamespaceKey key = Except.ok (ns, name) →
      env.podGet ns name = LookupResult.found pod →
      pod.deletionTimestamp = none →
      ∀ vol ∈ pod.volumes, ∀ tmpl, vol.ephemeral = some tmpl →
        ∃ pvc, (applyCreates env ops).pvcGet pod.ns (VolumeClaimName pod vol) =
          LookupResult.found pvc ∧ VolumeIsForPod pod pvc = none) := by
  cases hkey : splitMetaNamespaceKey key with
  | error e =>
    exfalso
    simp [syncHandler, hkey] at h
  | ok p =>
    obtain ⟨ns0, name0⟩ := p
    cases hpod : env.podGet ns0 name0 with
    | err e =>
      exfalso
      simp [syncHandler, hkey, hpod] at h
    | notFound =>
      constructor
      · simp [syncHandler, hkey, applyCreates_podGet, hpod]
      · intro ns name pod hk hp hdel
        simp only [Except.ok.injEq, Prod.mk.injEq] at hk
        obtain ⟨rfl, rfl⟩ := hk
        rw [hpod] at hp
        exact absurd hp (by simp)
    | found pod =>
      cases hdel : pod.deletionTimestamp with
      | some t =>
        constructor
        · simp [syncHandler, hkey, applyCreates_podGet, hpod, hdel]
        · intro ns name pod' hk hp hdel'
          simp only [Except.ok.injEq, Prod.mk.injEq] at hk
          obtain ⟨rfl, rfl⟩ := hk
          rw [hpod] at hp
          simp only [LookupResult.found.injEq] at hp
          subst hp
          rw [hdel] at hdel'
          exact absurd hdel' (by simp)
      | none =>
        have hfe : forEachVolume env key pod pod.volumes =
            (Except.ok (), ops, evs) := by
          have h' := h
          simp only [syncHandler, hkey, hpod, hdel, Option.isSome_none,
            Bool.false_eq_true, if_false, Option.some.injEq] at h'
          exact h'
        have hCS : ∀ op ∈ ops, ∃ pvc2, op = StoreOp.create pod.ns pvc2 ∧
            VolumeIsForPod pod pvc2 = none := by
          intro op hop
          obtain ⟨pvc, h1, h2, -⟩ := forEachVolume_ops_shape env key pod
            pod.volumes op (by rw [hfe]; exact hop)
          exact ⟨pvc, h1, h2⟩
        have hsecond := forEachVolume_second_run env ops key pod hCS
          pod.volumes ops evs hfe (fun op hop => hop)
        constructor
        · simp [syncHandler, hkey, applyCreates_podGet, hpod, hdel, hsecond]
        · intro ns name pod' hk hp hdel'
          simp only [Except.ok.injEq, Prod.mk.injEq] at hk
          obtain ⟨rfl, rfl⟩ := hk
          rw [hpod] at hp
          simp only [LookupResult.found.injEq] at hp
          subst hp
          intro vol hv tmpl hvol
          have heach := forEachVolume_each_ok env key pod pod.volumes ops evs
            hfe vol hv
          exact handleVolume_second_lookup env ops pod vol tmpl hvol hCS
            heach.2 heach.1

/-- Witness for C2: the pass that created claim `p1-vol-a` for pod `p1` is
a no-op when rerun over the absorbed cache. -/
theorem syncHandler_idempotent_witness :
    syncHandler
      (applyCreates envW [StoreOp.create "ns" (newPVC podW "p1-vol-a" tmplW)])
      "ns/p1" = some (Except.ok (), [], []) :=
  (syncHandler_idempotent envW "ns/p1"
    [StoreOp.create "ns" (newPVC podW "p1-vol-a" tmplW)] [] rfl).1
